import Mathlib

/-!
Shallow embedding of the raotTube video-processing service
(`src/video-processing-service/src/index.ts`).

The pure algorithmic parts (identity sanitization, validation logic, the
profile fan-out loop, the ledger bookkeeping of the `/transcode` handler)
are translated directly from the TypeScript source.  External collaborators
(GCS download/upload, ffmpeg/ffprobe, the Supabase ledger transport) are
modelled by an explicit environment of outcomes; the Supabase table itself
is modelled as an explicit keyed ledger state with PostgREST semantics
(insert on an existing primary key errors, upsert replaces, update touches
only existing rows).
-/

namespace RaotTube

/-! ## Configuration constants (index.ts lines 10-16) -/
def BUCKET_NAME : String := "raot-tube-videos-processed"

def SUPPORTED_FORMATS : List String := ["mp4", "mov", "avi", "mkv"]

def PROCESSING_TIMEOUT : Nat := 900000

structure QualitySetting where
  height : Nat
  crf : Nat
deriving DecidableEq, Repr

def VIDEO_QUALITIES : List (String × QualitySetting) :=
  [("360p", ⟨360, 23⟩), ("720p", ⟨720, 23⟩)]

/-! ## JavaScript string helpers used by the source -/
/-- Truthiness of a JS `string | undefined` value: `undefined` and the empty
string are falsy. -/
def jsTruthy : Option String → Bool
  | none => false
  | some s => !(s == "")

/-- The JS `a || b` idiom on `string | undefined` values. -/
def jsOr (a b : Option String) : Option String :=
  if jsTruthy a then a else b

instance {e a : Type} [DecidableEq e] [DecidableEq a] : DecidableEq (Except e a) :=
  fun x y =>
    match x, y with
    | Except.error u, Except.error v => decidable_of_iff (u = v) (by simp)
    | Except.error _, Except.ok _ => Decidable.isFalse (by simp)
    | Except.ok _, Except.error _ => Decidable.isFalse (by simp)
    | Except.ok u, Except.ok v => decidable_of_iff (u = v) (by simp)

/-- The JS `String.prototype.split` with a one-character separator: splits at
every occurrence, keeping empty segments. -/
def splitOnChar (sep : Char) : List Char → List (List Char)
  | [] => [[]]
  | c :: rest =>
    let r := splitOnChar sep rest
    if c == sep then [] :: r
    else
      match r with
      | [] => [[c]]
      | h :: t => (c :: h) :: t

def jsSplit (s : String) (sep : Char) : List String :=
  (splitOnChar sep s.toList).map String.mk

/-- Character class `[a-zA-Z0-9]` of the sanitizer regex. -/
def isAlnumAscii (c : Char) : Bool :=
  ('a' ≤ c && c ≤ 'z') || ('A' ≤ c && c ≤ 'Z') || ('0' ≤ c && c ≤ '9')

/-- ASCII lowercasing of a single character, the behaviour of JS
`toLowerCase` on the ASCII range (the only range reachable here, since the
sanitizer has already replaced every non-alphanumeric character). -/
def toLowerAscii (c : Char) : Char :=
  if 'A' ≤ c && c ≤ 'Z' then Char.ofNat (c.toNat + 32) else c

/-- The global replacement of the pattern `-+` by `"-"`: collapse every run
of hyphens to a single hyphen. -/
def collapseHyphens : List Char → List Char
  | [] => []
  | [c] => [c]
  | a :: b :: rest =>
    if a == '-' && b == '-' then collapseHyphens (b :: rest)
    else a :: collapseHyphens (b :: rest)

/-- The regex `/^-+|-+$/g → ""`: drop the leading and trailing hyphen runs. -/
def stripHyphens (l : List Char) : List Char :=
  ((l.dropWhile (fun c => c == '-')).reverse.dropWhile (fun c => c == '-')).reverse

/-- The regex `/\.[^/.]+$/ → ""` on the reversed character list: if the
string ends in a dot followed by one or more characters none of which is a
dot or slash, remove that suffix (the file extension). -/
def stripExtRev (r : List Char) : List Char :=
  let tail := r.takeWhile (fun c => !(c == '.') && !(c == '/'))
  match r.drop tail.length with
  | '.' :: rest => if tail.isEmpty then r else rest
  | _ => r

/-- `sanitizeVideoId` (index.ts lines 165-183).  The wall-clock value used by
the empty-input fallback (`Date.now()`) is passed in explicitly as `now`. -/
def sanitizeVideoId (videoId : String) (now : Nat) : String :=
  let withoutExtension : List Char := (stripExtRev videoId.toList.reverse).reverse
  let replaced := withoutExtension.map (fun c => if isAlnumAscii c then c else '-')
  let collapsed := collapseHyphens replaced
  let stripped := stripHyphens collapsed
  let lowered := stripped.map toLowerAscii
  if lowered.isEmpty then "video-" ++ Nat.repr now
  else String.mk (lowered.take 100)

/-! ## Character-level facts about the sanitizer -/
/-- Characters the sanitized identity may contain: lowercase ASCII letters,
ASCII digits, and the hyphen. -/
def isSanChar (c : Char) : Bool :=
  ('a' ≤ c && c ≤ 'z') || ('0' ≤ c && c ≤ '9') || c == '-'

/-- Adjacent characters are never both hyphens. -/
def SanR (a b : Char) : Prop := ¬(a = '-' ∧ b = '-')

instance (a b : Char) : Decidable (SanR a b) :=
  inferInstanceAs (Decidable (¬(a = '-' ∧ b = '-')))

/-! ## Stage decomposition of the sanitizer -/
/-- The character list after extension-stripping and the global
non-alphanumeric replacement. -/
def sanReplaced (s : String) : List Char :=
  ((stripExtRev s.toList.reverse).reverse).map (fun c => if isAlnumAscii c then c else '-')

/-- The character list after replacement, hyphen collapse, edge-hyphen
stripping and lowercasing: the value of the sanitizer right before the
empty-fallback check and the truncation. -/
def sanLowered (s : String) : List Char :=
  (stripHyphens (collapseHyphens (sanReplaced s))).map toLowerAscii

/-- `path.basename(p, path.extname(p))`: the last path segment with its
extension (if any) removed, used for the record `title`. -/
def jsBasenameNoExt (p : String) : String :=
  let base := (jsSplit p '/').getLastD p
  let r := base.toList.reverse
  let tail := r.takeWhile (fun c => !(c == '.'))
  match r.drop tail.length with
  | '.' :: rest => if rest.isEmpty then base else String.mk rest.reverse
  | _ => base

/-! ## Probe and validation (index.ts lines 41-46, 134-162) -/
structure FfprobeStream where
  codec_type : String
  width : Option Nat
  height : Option Nat
deriving DecidableEq, Repr

structure FfprobeData where
  format_name : Option String
  duration : Option Nat
  streams : Option (List FfprobeStream)
deriving DecidableEq, Repr

structure VideoMetadata where
  duration : Option Nat
  format : Option String
  width : Option Nat
  height : Option Nat
deriving DecidableEq, Repr

/-- Substring test on character lists, the semantics of JS
`String.prototype.includes`. -/
def isPrefixCh : List Char → List Char → Bool
  | [], _ => true
  | _ :: _, [] => false
  | a :: as, b :: bs => a == b && isPrefixCh as bs

def isInfixCh (p : List Char) : List Char → Bool
  | [] => isPrefixCh p []
  | l@(_ :: tl) => isPrefixCh p l || isInfixCh p tl

def jsIncludes (s sub : String) : Bool := isInfixCh sub.toList s.toList

/-- `validateVideo` (index.ts lines 134-162).  The ffprobe callback outcome
is the explicit argument: `Except.error` models the probe itself failing;
`Except.ok` carries the probe data the validation logic inspects. -/
def validateVideo (probeResult : Except String FfprobeData) :
    Except String VideoMetadata :=
  match probeResult with
  | Except.error e => Except.error ("Failed to probe video file: " ++ e)
  | Except.ok metadata =>
    let format := String.mk (((metadata.format_name).getD "").toList.map toLowerAscii)
    if !(SUPPORTED_FORMATS.any (fun supported => jsIncludes format supported)) then
      Except.error ("Unsupported video format: " ++ format)
    else
      match (metadata.streams.getD []).find? (fun s => s.codec_type == "video") with
      | none => Except.error "No video stream found"
      | some videoStream =>
        Except.ok { duration := metadata.duration
                  , format := some format
                  , width := videoStream.width
                  , height := videoStream.height }

/-! ## Transcoding (index.ts lines 89-131) -/
inductive TranscodeOutcome where
  | success
  | failure (msg : String)
  | timeout
deriving DecidableEq, Repr

/-- Observable effects of one handler run on the external collaborators. -/
inductive Event where
  | downloadCall (bucket objectKey destination : String)
  | transcodeCall (input output : String) (height : Nat)
  | sigterm (height : Nat)
  | sigkill (height : Nat)
  | uploadCall (bucket destination : String)
deriving DecidableEq, Repr

/-- `transcodeVideo` (index.ts lines 89-131) as a function of the external
ffmpeg outcome.  On success the `end` handler sends SIGTERM to the finished
command and resolves; on error the handler sends SIGKILL and rejects; on
expiry of the `PROCESSING_TIMEOUT` timer the process is sent SIGTERM, then
SIGKILL after the 5-second grace period, and the promise rejects with a
timeout error. -/
def transcodeVideo (inputPath outputPath : String) (quality : QualitySetting)
    (outcome : TranscodeOutcome) : List Event × Except String Unit :=
  match outcome with
  | TranscodeOutcome.success =>
    ([Event.transcodeCall inputPath outputPath quality.height,
      Event.sigterm quality.height], Except.ok ())
  | TranscodeOutcome.failure msg =>
    ([Event.transcodeCall inputPath outputPath quality.height,
      Event.sigkill quality.height], Except.error msg)
  | TranscodeOutcome.timeout =>
    ([Event.transcodeCall inputPath outputPath quality.height,
      Event.sigterm quality.height, Event.sigkill quality.height],
     Except.error ("FFmpeg process timed out for " ++ Nat.repr quality.height ++ "p"))

/-! ## The status ledger (the Supabase `videos` table) -/
inductive VStatus where
  | processing
  | completed
  | failed
deriving DecidableEq, Repr

structure VideoRecord where
  id : String
  title : String
  status : VStatus
  metadata : Option VideoMetadata
  processed_videos : List (String × String)
deriving DecidableEq, Repr

/-- The ledger is the row list of the `videos` table; ids are its key. -/
abbrev Ledger : Type := List VideoRecord

/-- `upsert(record, onConflict: id)`: replace the row with the same id, or
append the record when no such row exists. -/
def ledgerUpsert (led : Ledger) (rec : VideoRecord) : Ledger :=
  if led.any (fun r => r.id == rec.id) then
    led.map (fun r => if r.id == rec.id then rec else r)
  else led ++ [rec]

/-- Plain `insert(record)`: errors with a duplicate-key violation when a row
with the same primary key already exists. -/
def ledgerInsert (led : Ledger) (rec : VideoRecord) : Except String Ledger :=
  if led.any (fun r => r.id == rec.id) then
    Except.error "duplicate key value violates unique constraint"
  else Except.ok (led ++ [rec])

/-- `update({status}).eq('id', id)`: set the status on every row whose id
matches; rows are created by upsert/insert only, never by update. -/
def ledgerUpdateStatus (led : Ledger) (id : String) (st : VStatus) : Ledger :=
  led.map (fun r => if r.id == id then { r with status := st } else r)

/-! ## Trigger parsing (index.ts lines 217-257) -/
/-- Fields of the JSON object decoded from a Pub/Sub `message.data`
payload; each is a JS `string | undefined`. -/
structure ParsedEventData where
  bucket : Option String
  bucketId : Option String
  name : Option String
  objectId : Option String
deriving DecidableEq, Repr

/-- The `data` member of a direct Cloud Storage event body. -/
structure DirectEventData where
  bucket : Option String
  name : Option String
deriving DecidableEq, Repr

/-- The request body as the handler inspects it.  `messageData = some r`
models a truthy `req.body.message?.data` whose base64+JSON decode result is
`r` (`Except.error` when `Buffer.from`/`JSON.parse` throws);
`directData = some d` models a truthy `req.body.data`. -/
structure ReqBody where
  messageData : Option (Except String ParsedEventData)
  directData : Option DirectEventData
deriving Repr

/-- The event-parsing block of the handler (index.ts lines 217-257),
returning the validated `(bucket, name)` pair or the thrown error.  The
embedded Pub/Sub branch is taken whenever `message.data` is truthy; the
direct branch only as a fallback. -/
def parseStorageEvent (body : ReqBody) : Except String (String × String) :=
  match body.messageData with
  | some decoded =>
    match decoded with
    | Except.error e => Except.error e
    | Except.ok parsedData =>
      let bucket := jsOr parsedData.bucket parsedData.bucketId
      let name := jsOr parsedData.name parsedData.objectId
      if jsTruthy bucket && jsTruthy name then
        Except.ok (bucket.getD "", name.getD "")
      else Except.error "Missing required fields in message data"
  | none =>
    match body.directData with
    | some d =>
      if jsTruthy d.bucket && jsTruthy d.name then
        Except.ok (d.bucket.getD "", d.name.getD "")
      else Except.error "Missing required fields in message data"
    | none => Except.error "Invalid event format"

/-! ## The POST /transcode handler (index.ts lines 191-397) -/
/-- Outcomes of the external collaborators for one handler invocation. -/
structure Env where
  /-- Result of `storage.bucket(..).file(..).download(..)`. -/
  downloadResult : Except String Unit
  /-- Result of the `ffprobe` callback inside `validateVideo`. -/
  probeResult : Except String FfprobeData
  /-- Outcome of the ffmpeg run for a given quality name. -/
  transcodeResult : String → TranscodeOutcome
  /-- Result of `storage.bucket(BUCKET_NAME).upload(..)` per destination. -/
  uploadResult : String → Except String Unit
  /-- Transport fault of the Supabase `upsert` call, if any. -/
  upsertFault : Option String
  /-- Transport fault of the Supabase `insert` call, if any (a duplicate
  primary key makes the insert error even without a transport fault). -/
  insertFault : Option String
  /-- Transport fault of the Supabase `update` calls, if any. -/
  updateFault : Option String
  /-- Per-path failure of `fs.unlinkSync` during cleanup. -/
  unlinkFault : String → Bool

/-- Final observable state of one handler invocation. -/
structure RunResult where
  httpStatus : Nat
  respBody : String
  ledger : Ledger
  /-- Files present in scratch storage after the call returns. -/
  fs : List String
  trace : List Event
  /-- The `tempFiles` array as registered during the run. -/
  tempFiles : List String
deriving Repr

/-- The `cleanup` helper (index.ts lines 202-213): unlink every registered
temp file that exists, swallowing per-file deletion errors. -/
def runCleanup (unlinkFault : String → Bool) (fs tempFiles : List String) :
    List String :=
  fs.filter (fun f => !(tempFiles.contains f && !unlinkFault f))

/-- The catch block of the handler (index.ts lines 371-396): if a non-empty
`sanitizedId` is in scope, best-effort update the row to `failed` (a
transport fault is only logged); run cleanup; respond 500 with the error
message. -/
def failExit (updateFault : Option String) (unlinkFault : String → Bool)
    (sanitizedId errMsg : String) (ledger : Ledger) (fs tempFiles : List String)
    (trace : List Event) : RunResult :=
  let ledger1 :=
    if sanitizedId == "" then ledger
    else if updateFault.isSome then ledger
    else ledgerUpdateStatus ledger sanitizedId VStatus.failed
  { httpStatus := 500, respBody := errMsg, ledger := ledger1,
    fs := runCleanup unlinkFault fs tempFiles, trace := trace,
    tempFiles := tempFiles }

/-- The never-upscale guard (index.ts line 296):
`metadata.height && metadata.height < settings.height` with JS number
truthiness (`undefined` and `0` are falsy). -/
def skipQuality (metadata : VideoMetadata) (settings : QualitySetting) : Bool :=
  match metadata.height with
  | some h => !(h == 0) && decide (h < settings.height)
  | none => false

/-- The per-quality loop of the handler (index.ts lines 290-308), threading
the registered temp files, the event trace and the scratch filesystem, and
producing the `processedFiles` map or the first thrown error. -/
def processQualities (transcodeResult : String → TranscodeOutcome)
    (uploadResult : String → Except String Unit)
    (videoId : String) (metadata : VideoMetadata) :
    List (String × QualitySetting) → List String → List Event → List String →
    List String × List Event × List String × Except String (List (String × String))
  | [], tfs, tr, fs => (tfs, tr, fs, Except.ok [])
  | (quality, settings) :: rest, tfs, tr, fs =>
    let tempOutputFile := "/tmp/" ++ videoId ++ "_" ++ quality ++ ".mp4"
    let tfs1 := tfs ++ [tempOutputFile]
    if skipQuality metadata settings then
      processQualities transcodeResult uploadResult videoId metadata rest tfs1 tr fs
    else
      let inputFile := "/tmp/" ++ videoId ++ "_input.mp4"
      let step := transcodeVideo inputFile tempOutputFile settings (transcodeResult quality)
      let tr1 := tr ++ step.1
      match step.2 with
      | Except.error e => (tfs1, tr1, fs, Except.error e)
      | Except.ok _ =>
        let fs1 := fs ++ [tempOutputFile]
        let destination := "processed/" ++ videoId ++ "/" ++ quality ++ ".mp4"
        let tr2 := tr1 ++ [Event.uploadCall BUCKET_NAME destination]
        match uploadResult destination with
        | Except.error e => (tfs1, tr2, fs1, Except.error e)
        | Except.ok _ =>
          match processQualities transcodeResult uploadResult videoId metadata rest tfs1 tr2 fs1 with
          | (tfs2, tr3, fs2, Except.error e) => (tfs2, tr3, fs2, Except.error e)
          | (tfs2, tr3, fs2, Except.ok m) =>
            (tfs2, tr3, fs2,
             Except.ok ((quality, "gs://" ++ BUCKET_NAME ++ "/" ++ destination) :: m))

/-- The `app.post('/transcode')` handler (index.ts lines 191-397) over an
explicit collaborator environment, prior ledger and scratch filesystem.
`now` stands for the wall clock consulted by the sanitizer fallback. -/
def extractVideoId (name : String) : String :=
  let pathParts := jsSplit name '/'
  if pathParts.length > 1 then pathParts.getD 1 "" else name

def handleTranscode (env : Env) (body : ReqBody) (now : Nat)
    (ledger0 : Ledger) (fs0 : List String) : RunResult :=
  match parseStorageEvent body with
  | Except.error e => failExit env.updateFault env.unlinkFault "" e ledger0 fs0 [] []
  | Except.ok (bucket, name) =>
    let videoId := extractVideoId name
    let sanitizedId := sanitizeVideoId videoId now
    let tempInputFile := "/tmp/" ++ videoId ++ "_input.mp4"
    let tempFiles1 := [tempInputFile]
    let trace1 := [Event.downloadCall bucket name tempInputFile]
    match env.downloadResult with
    | Except.error e =>
      failExit env.updateFault env.unlinkFault sanitizedId e ledger0 fs0 tempFiles1 trace1
    | Except.ok _ =>
      let fs1 := fs0 ++ [tempInputFile]
      match validateVideo env.probeResult with
      | Except.error e =>
        failExit env.updateFault env.unlinkFault sanitizedId e ledger0 fs1 tempFiles1 trace1
      | Except.ok metadata =>
        match processQualities env.transcodeResult env.uploadResult videoId metadata
            VIDEO_QUALITIES tempFiles1 trace1 fs1 with
        | (tempFiles2, trace2, fs2, Except.error e) =>
          failExit env.updateFault env.unlinkFault sanitizedId e ledger0 fs2 tempFiles2 trace2
        | (tempFiles2, trace2, fs2, Except.ok processedFiles) =>
          let videoRecord : VideoRecord :=
            { id := sanitizedId
            , title := jsBasenameNoExt videoId
            , status := VStatus.completed
            , metadata := some metadata
            , processed_videos := processedFiles }
          match env.upsertFault with
          | some e =>
            failExit env.updateFault env.unlinkFault sanitizedId e ledger0 fs2 tempFiles2 trace2
          | none =>
            let ledger1 := ledgerUpsert ledger0 videoRecord
            let initialRecord : VideoRecord :=
              { id := sanitizedId
              , title := jsBasenameNoExt videoId
              , status := VStatus.processing
              , metadata := none
              , processed_videos := [] }
            match env.insertFault with
            | some e =>
              failExit env.updateFault env.unlinkFault sanitizedId e ledger1 fs2 tempFiles2 trace2
            | none =>
              match ledgerInsert ledger1 initialRecord with
              | Except.error e =>
                failExit env.updateFault env.unlinkFault sanitizedId e ledger1 fs2 tempFiles2 trace2
              | Except.ok ledger2 =>
                let fs3 := runCleanup env.unlinkFault fs2 tempFiles2
                let ledger3 :=
                  if sanitizedId == "" then ledger2
                  else if env.updateFault.isSome then ledger2
                  else ledgerUpdateStatus ledger2 sanitizedId VStatus.failed
                { httpStatus := 200, respBody := "Processing completed successfully",
                  ledger := ledger3, fs := fs3, trace := trace2, tempFiles := tempFiles2 }

/-! ## Claim C5 -/
/-- The 101-character input exposing the trailing-hyphen truncation defect:
99 letters, a hyphen, and one more letter. -/
def longId : String := String.mk (List.replicate 99 'a' ++ ['-', 'a'])

/-! ## Concrete scenarios shared by witnesses and counterexamples -/
/-- A probe result of a healthy 1280×720 mp4 source. -/
def probeOk720 : FfprobeData :=
  { format_name := some "mov,mp4,m4a,3gp,3g2,mj2"
  , duration := some 60
  , streams := some [{ codec_type := "video", width := some 1280, height := some 720 }] }

/-- An environment in which every collaborator call succeeds. -/
def envAllOk : Env :=
  { downloadResult := Except.ok ()
  , probeResult := Except.ok probeOk720
  , transcodeResult := fun _ => TranscodeOutcome.success
  , uploadResult := fun _ => Except.ok ()
  , upsertFault := none
  , insertFault := none
  , updateFault := none
  , unlinkFault := fun _ => false }

/-- A direct-form trigger for `uploads/My Vacation!!.mp4` in bucket `raw`. -/
def bodyDirect : ReqBody :=
  { messageData := none
  , directData := some { bucket := some "raw", name := some "uploads/My Vacation!!.mp4" } }

/-- An environment identical to `envAllOk` except that every transcode runs
into the `PROCESSING_TIMEOUT` wall-clock budget. -/
def envTimeout : Env :=
  { envAllOk with transcodeResult := fun _ => TranscodeOutcome.timeout }

/-- A probe result with an unsupported container format. -/
def probeBadFormat : FfprobeData :=
  { format_name := some "webm"
  , duration := some 60
  , streams := some [{ codec_type := "video", width := some 640, height := some 480 }] }

def envBadFormat : Env :=
  { envAllOk with probeResult := Except.ok probeBadFormat }

/-- A pre-existing completed ledger record for a given identity. -/
def completedRecordFor (id : String) : VideoRecord :=
  { id := id, title := "My Vacation!!", status := VStatus.completed
  , metadata := none, processed_videos := [] }

/-- The Pub/Sub parsed payload used by the C9 scenario. -/
def parsedEmbedded : ParsedEventData :=
  { bucket := some "bucket-embedded", bucketId := none
  , name := some "name-embedded", objectId := none }

/-- The direct event data used by the C9 scenario. -/
def directFields : DirectEventData :=
  { bucket := some "bucket-direct", name := some "name-direct" }

/-- A probed metadata with height 480: 360p is included, 720p is skipped. -/
def mdHeight480 : VideoMetadata :=
  { duration := some 60, format := some "mp4", width := some 854, height := some 480 }

/-- A probed metadata with no height at all. -/
def mdNoHeight : VideoMetadata :=
  { duration := some 60, format := some "mp4", width := some 640, height := none }

/-! ## Theorems -/

example : sanitizeVideoId "My Vacation!!.mp4" 0 = "my-vacation" := by decide

example : sanitizeVideoId "..." 17 = "video-17" := by decide

example : sanitizeVideoId "a.tar.gz" 0 = "a-tar" := by decide

theorem char_le_iff (a b : Char) : a ≤ b ↔ a.toNat ≤ b.toNat := by
  rw [Char.le_def]; exact Iff.rfl

theorem toNat_upperA : ('A' : Char).toNat = 65 := rfl

theorem toNat_upperZ : ('Z' : Char).toNat = 90 := rfl

theorem toNat_lowerA : ('a' : Char).toNat = 97 := rfl

theorem toNat_lowerZ : ('z' : Char).toNat = 122 := rfl

theorem toNat_digit0 : ('0' : Char).toNat = 48 := rfl

theorem toNat_digit9 : ('9' : Char).toNat = 57 := rfl

theorem hyphen_toNat : ('-' : Char).toNat = 45 := rfl

theorem toNat_ofNat_valid (n : Nat) (h : n.isValidChar) :
    (Char.ofNat n).toNat = n := by
  unfold Char.ofNat
  rw [dif_pos h]
  simp [Char.ofNatAux, Char.toNat, UInt32.ofNat', UInt32.toNat]

theorem eq_hyphen_of_toNat {c : Char} (h : c.toNat = 45) : c = '-' := by
  have hc := Char.ofNat_toNat c
  rw [h] at hc
  rw [← hc]

theorem toLowerAscii_toNat (c : Char) :
    (toLowerAscii c).toNat =
      if 65 ≤ c.toNat ∧ c.toNat ≤ 90 then c.toNat + 32 else c.toNat := by
  unfold toLowerAscii
  split
  · next hb =>
    have h : 65 ≤ c.toNat ∧ c.toNat ≤ 90 := by
      simpa only [Bool.and_eq_true, decide_eq_true_eq, char_le_iff,
        toNat_upperA, toNat_upperZ] using hb
    rw [if_pos h]
    exact toNat_ofNat_valid _ (Or.inl (by omega))
  · next hb =>
    have h : ¬(65 ≤ c.toNat ∧ c.toNat ≤ 90) := by
      simpa only [Bool.and_eq_true, decide_eq_true_eq, char_le_iff,
        toNat_upperA, toNat_upperZ] using hb
    rw [if_neg h]

theorem isSanChar_iff (c : Char) :
    isSanChar c = true ↔
      (97 ≤ c.toNat ∧ c.toNat ≤ 122) ∨ (48 ≤ c.toNat ∧ c.toNat ≤ 57) ∨
      c.toNat = 45 := by
  unfold isSanChar
  simp only [Bool.or_eq_true, Bool.and_eq_true, decide_eq_true_eq, beq_iff_eq,
    char_le_iff, toNat_lowerA, toNat_lowerZ, toNat_digit0, toNat_digit9]
  constructor
  · rintro ((⟨h1, h2⟩ | ⟨h1, h2⟩) | h)
    · exact Or.inl ⟨h1, h2⟩
    · exact Or.inr (Or.inl ⟨h1, h2⟩)
    · subst h; exact Or.inr (Or.inr rfl)
  · rintro (⟨h1, h2⟩ | ⟨h1, h2⟩ | h)
    · exact Or.inl (Or.inl ⟨h1, h2⟩)
    · exact Or.inl (Or.inr ⟨h1, h2⟩)
    · exact Or.inr (eq_hyphen_of_toNat h)

theorem isAlnumAscii_iff (c : Char) :
    isAlnumAscii c = true ↔
      (97 ≤ c.toNat ∧ c.toNat ≤ 122) ∨ (65 ≤ c.toNat ∧ c.toNat ≤ 90) ∨
      (48 ≤ c.toNat ∧ c.toNat ≤ 57) := by
  unfold isAlnumAscii
  simp only [Bool.or_eq_true, Bool.and_eq_true, decide_eq_true_eq, char_le_iff,
    toNat_lowerA, toNat_lowerZ, toNat_upperA, toNat_upperZ, toNat_digit0,
    toNat_digit9]
  tauto

/-- Lowercasing sends the sanitizer's character set into the sanitized set. -/
theorem isSanChar_toLowerAscii (c : Char) (h : isAlnumAscii c = true ∨ c = '-') :
    isSanChar (toLowerAscii c) = true := by
  rw [isSanChar_iff, toLowerAscii_toNat]
  rcases h with h | h
  · rw [isAlnumAscii_iff] at h
    split <;> omega
  · subst h
    rw [if_neg (by rw [hyphen_toNat]; omega), hyphen_toNat]
    omega

/-- Lowercasing produces a hyphen only from a hyphen. -/
theorem eq_hyphen_of_toLowerAscii {c : Char} (h : toLowerAscii c = '-') : c = '-' := by
  have ht := toLowerAscii_toNat c
  rw [h, hyphen_toNat] at ht
  apply eq_hyphen_of_toNat
  by_cases hc : 65 ≤ c.toNat ∧ c.toNat ≤ 90
  · rw [if_pos hc] at ht; omega
  · rw [if_neg hc] at ht; omega

/-- Lowercasing fixes already-sanitized characters. -/
theorem toLowerAscii_fixed (c : Char) (h : isSanChar c = true) : toLowerAscii c = c := by
  rw [isSanChar_iff] at h
  unfold toLowerAscii
  rw [if_neg]
  intro hc
  have h2 : 65 ≤ c.toNat ∧ c.toNat ≤ 90 := by
    simpa only [Bool.and_eq_true, decide_eq_true_eq, char_le_iff,
      toNat_upperA, toNat_upperZ] using hc
  omega

theorem sanChar_not_alnum_eq_hyphen {c : Char} (hs : isSanChar c = true)
    (ha : isAlnumAscii c = false) : c = '-' := by
  rw [isSanChar_iff] at hs
  have ha' : ¬ isAlnumAscii c = true := by simp [ha]
  rw [isAlnumAscii_iff] at ha'
  apply eq_hyphen_of_toNat
  omega

/-! ## Structural facts about the sanitizer stages -/
theorem head?_collapseHyphens (x : Char) (l : List Char) :
    (collapseHyphens (x :: l)).head? = some x := by
  induction l generalizing x with
  | nil => rfl
  | cons b rest ih =>
    show (if x == '-' && b == '-' then collapseHyphens (b :: rest)
          else x :: collapseHyphens (b :: rest)).head? = some x
    split
    · next h =>
      rw [ih b]
      simp only [Bool.and_eq_true, beq_iff_eq] at h
      rw [h.1, h.2]
    · rfl

theorem mem_collapseHyphens {c : Char} :
    ∀ {l : List Char}, c ∈ collapseHyphens l → c ∈ l
  | [], h => h
  | [_], h => h
  | a :: b :: rest, h => by
    revert h
    show c ∈ (if a == '-' && b == '-' then collapseHyphens (b :: rest)
              else a :: collapseHyphens (b :: rest)) → c ∈ a :: b :: rest
    split
    · intro h
      exact List.mem_cons_of_mem a (mem_collapseHyphens h)
    · intro h
      rcases List.mem_cons.mp h with h | h
      · exact h ▸ List.mem_cons_self _ _
      · exact List.mem_cons_of_mem a (mem_collapseHyphens h)

theorem chain'_collapseHyphens : ∀ (l : List Char), List.Chain' SanR (collapseHyphens l)
  | [] => List.chain'_nil
  | [c] => List.chain'_singleton c
  | a :: b :: rest => by
    show List.Chain' SanR (if a == '-' && b == '-' then collapseHyphens (b :: rest)
          else a :: collapseHyphens (b :: rest))
    split
    · exact chain'_collapseHyphens (b :: rest)
    · next h =>
      rw [List.chain'_cons']
      refine ⟨?_, chain'_collapseHyphens (b :: rest)⟩
      intro y hy
      rw [head?_collapseHyphens] at hy
      cases hy
      intro hab
      simp only [Bool.and_eq_true, beq_iff_eq] at h
      exact h ⟨hab.1, hab.2⟩

theorem collapseHyphens_eq_self :
    ∀ {l : List Char}, List.Chain' SanR l → collapseHyphens l = l
  | [], _ => rfl
  | [_], _ => rfl
  | a :: b :: rest, h => by
    show (if a == '-' && b == '-' then collapseHyphens (b :: rest)
          else a :: collapseHyphens (b :: rest)) = a :: b :: rest
    rw [List.chain'_cons] at h
    rw [if_neg, collapseHyphens_eq_self h.2]
    simp only [Bool.and_eq_true, beq_iff_eq]
    exact fun hc => h.1 ⟨hc.1, hc.2⟩

theorem SanR_flip {a b : Char} (h : SanR a b) : SanR b a := by
  unfold SanR at h ⊢
  tauto

theorem chain'_reverse_sanR {l : List Char} (h : List.Chain' SanR l) :
    List.Chain' SanR l.reverse := by
  rw [List.chain'_reverse]
  exact h.imp (fun _ _ hr => SanR_flip hr)

theorem mem_stripHyphens {c : Char} {l : List Char} (h : c ∈ stripHyphens l) :
    c ∈ l := by
  unfold stripHyphens at h
  rw [List.mem_reverse] at h
  have h2 := (List.dropWhile_suffix _).sublist.mem h
  rw [List.mem_reverse] at h2
  exact (List.dropWhile_suffix _).sublist.mem h2

theorem chain'_stripHyphens {l : List Char} (h : List.Chain' SanR l) :
    List.Chain' SanR (stripHyphens l) := by
  unfold stripHyphens
  apply chain'_reverse_sanR
  apply List.Chain'.suffix _ (List.dropWhile_suffix _)
  apply chain'_reverse_sanR
  exact List.Chain'.suffix h (List.dropWhile_suffix _)

theorem head?_dropWhile_hyphen {l : List Char} {c : Char}
    (h : (l.dropWhile (fun x => x == '-')).head? = some c) : c ≠ '-' := by
  have hne : l.dropWhile (fun x => x == '-') ≠ [] := by
    intro he
    rw [he] at h
    cases h
  have := List.head_dropWhile_not (fun x : Char => x == '-') l hne
  rw [List.head?_eq_head hne] at h
  cases h
  simpa using this

theorem head?_stripHyphens {l : List Char} {c : Char}
    (h : (stripHyphens l).head? = some c) : c ≠ '-' := by
  unfold stripHyphens at h
  set x := l.dropWhile (fun x => x == '-') with hx
  have hpre : (x.reverse.dropWhile (fun x => x == '-')).reverse <+: x := by
    have hs : x.reverse.dropWhile (fun x => x == '-') <:+ x.reverse :=
      List.dropWhile_suffix _
    have := List.reverse_prefix.mpr hs
    rwa [List.reverse_reverse] at this
  obtain ⟨t, ht⟩ := hpre
  have hx2 : x.head? = some c := by
    rw [← ht, List.head?_append, h]
    rfl
  exact head?_dropWhile_hyphen hx2

theorem getLast?_stripHyphens {l : List Char} {c : Char}
    (h : (stripHyphens l).getLast? = some c) : c ≠ '-' := by
  unfold stripHyphens at h
  rw [List.getLast?_reverse] at h
  exact head?_dropWhile_hyphen h

theorem dropWhile_eq_self_of_head {p : Char → Bool} :
    ∀ {l : List Char}, (∀ c, l.head? = some c → p c = false) → l.dropWhile p = l
  | [], _ => rfl
  | a :: t, h => by
    rw [List.dropWhile_cons, h a rfl]
    simp

theorem stripHyphens_eq_self {l : List Char}
    (hh : ∀ c, l.head? = some c → c ≠ '-')
    (hl : ∀ c, l.getLast? = some c → c ≠ '-') : stripHyphens l = l := by
  unfold stripHyphens
  rw [dropWhile_eq_self_of_head, dropWhile_eq_self_of_head, List.reverse_reverse]
  · intro c hc
    simp only [beq_eq_false_iff_ne, ne_eq]
    exact hh c hc
  · intro c hc
    rw [List.head?_reverse] at hc
    simp only [beq_eq_false_iff_ne, ne_eq]
    have hnil : List.dropWhile (fun x : Char => x == '-') l ≠ [] := by
      intro he
      rw [he] at hc
      cases hc
    obtain ⟨t, ht⟩ := List.dropWhile_suffix (fun x : Char => x == '-') (l := l)
    apply hl c
    rw [← ht, List.getLast?_append_of_ne_nil t hnil]
    exact hc

theorem takeWhile_eq_self_of_all {p : Char → Bool} :
    ∀ {l : List Char}, (∀ c ∈ l, p c = true) → l.takeWhile p = l
  | [], _ => rfl
  | a :: t, h => by
    rw [List.takeWhile_cons, h a (List.mem_cons_self _ _)]
    simp only [if_true]
    rw [takeWhile_eq_self_of_all (fun c hc => h c (List.mem_cons_of_mem a hc))]

theorem stripExtRev_eq_self {l : List Char}
    (h : ∀ c ∈ l, (!(c == '.') && !(c == '/')) = true) : stripExtRev l = l := by
  unfold stripExtRev
  rw [takeWhile_eq_self_of_all h]
  simp

/-! ## Digits of the timestamp fallback -/
theorem digitChar_bound (n : Nat) (h : n < 10) :
    48 ≤ (Nat.digitChar n).toNat ∧ (Nat.digitChar n).toNat ≤ 57 := by
  interval_cases n <;> decide

theorem toDigitsCore_spec :
    ∀ (fuel n : Nat) (acc : List Char),
      ∃ l : List Char, Nat.toDigitsCore 10 fuel n acc = l ++ acc
        ∧ (∀ c ∈ l, 48 ≤ c.toNat ∧ c.toNat ≤ 57)
        ∧ (fuel ≠ 0 → l ≠ [])
  | 0, _, acc => ⟨[], rfl, by simp, fun h => absurd rfl h⟩
  | fuel+1, n, acc => by
    simp only [Nat.toDigitsCore]
    split
    · refine ⟨[Nat.digitChar (n % 10)], rfl, ?_, fun _ => by simp⟩
      intro c hc
      rw [List.mem_singleton] at hc
      subst hc
      exact digitChar_bound _ (Nat.mod_lt _ (by omega))
    · obtain ⟨l', h1, h2, h3⟩ :=
        toDigitsCore_spec fuel (n / 10) (Nat.digitChar (n % 10) :: acc)
      refine ⟨l' ++ [Nat.digitChar (n % 10)], ?_, ?_, fun _ => by simp⟩
      · rw [h1, List.append_assoc]
        rfl
      · intro c hc
        rcases List.mem_append.mp hc with h | h
        · exact h2 c h
        · rw [List.mem_singleton] at h
          subst h
          exact digitChar_bound _ (Nat.mod_lt _ (by omega))

theorem repr_toList (n : Nat) :
    (Nat.repr n).toList = Nat.toDigitsCore 10 (n + 1) n [] := rfl

theorem repr_digits (n : Nat) :
    (∀ c ∈ (Nat.repr n).toList, 48 ≤ c.toNat ∧ c.toNat ≤ 57)
    ∧ (Nat.repr n).toList ≠ [] := by
  rw [repr_toList]
  obtain ⟨l, h1, h2, h3⟩ := toDigitsCore_spec (n + 1) n []
  rw [h1, List.append_nil]
  exact ⟨h2, h3 (by omega)⟩

theorem chain'_of_no_hyphen :
    ∀ {l : List Char}, (∀ c ∈ l, c ≠ '-') → List.Chain' SanR l
  | [], _ => List.chain'_nil
  | a :: t, h => by
    rw [List.chain'_cons']
    refine ⟨?_, chain'_of_no_hyphen (fun c hc => h c (List.mem_cons_of_mem a hc))⟩
    intro y _ hy
    exact h a (List.mem_cons_self _ _) hy.1

theorem mk_toList (s : String) : String.mk s.toList = s := rfl

theorem mk_eq_empty {l : List Char} (h : String.mk l = "") : l = [] := by
  have := congrArg String.data h
  simpa using this

theorem sanitizeVideoId_eq_stages (s : String) (now : Nat) :
    sanitizeVideoId s now =
      if (sanLowered s).isEmpty then "video-" ++ Nat.repr now
      else String.mk ((sanLowered s).take 100) := rfl

theorem sanLowered_sanChar {s : String} {c : Char} (h : c ∈ sanLowered s) :
    isSanChar c = true := by
  unfold sanLowered at h
  obtain ⟨a, ha, rfl⟩ := List.mem_map.mp h
  have ha2 := mem_collapseHyphens (mem_stripHyphens ha)
  unfold sanReplaced at ha2
  obtain ⟨b, _, rfl⟩ := List.mem_map.mp ha2
  apply isSanChar_toLowerAscii
  split
  · next hb => exact Or.inl hb
  · exact Or.inr rfl

theorem sanLowered_chain' (s : String) : List.Chain' SanR (sanLowered s) := by
  unfold sanLowered
  rw [List.chain'_map]
  apply List.Chain'.imp ?_ (chain'_stripHyphens (chain'_collapseHyphens _))
  intro a b hab
  unfold SanR at hab ⊢
  intro hc
  exact hab ⟨eq_hyphen_of_toLowerAscii hc.1, eq_hyphen_of_toLowerAscii hc.2⟩

theorem sanLowered_head {s : String} {c : Char}
    (h : (sanLowered s).head? = some c) : c ≠ '-' := by
  unfold sanLowered at h
  rw [List.head?_map] at h
  cases ha : (stripHyphens (collapseHyphens (sanReplaced s))).head? with
  | none => rw [ha] at h; cases h
  | some a =>
    rw [ha] at h
    cases h
    intro hc
    exact head?_stripHyphens ha (eq_hyphen_of_toLowerAscii hc)

theorem sanChar_ne_dot_slash {c : Char} (h : isSanChar c = true) :
    (!(c == '.') && !(c == '/')) = true := by
  rw [isSanChar_iff] at h
  simp only [Bool.and_eq_true, Bool.not_eq_true', beq_eq_false_iff_ne, ne_eq]
  constructor
  · intro hc
    subst hc
    revert h
    decide
  · intro hc
    subst hc
    revert h
    decide

/-- A string made of sanitized characters, with no hyphen at either edge, no
adjacent hyphens, and at most 100 characters, is a fixed point of the
sanitizer. -/
theorem sanitizeVideoId_fixed (r : String) (now' : Nat)
    (hne : r.toList ≠ [])
    (hsan : ∀ c ∈ r.toList, isSanChar c = true)
    (hhead : ∀ c, r.toList.head? = some c → c ≠ '-')
    (hlast : ∀ c, r.toList.getLast? = some c → c ≠ '-')
    (hchain : List.Chain' SanR r.toList)
    (hlen : r.toList.length ≤ 100) :
    sanitizeVideoId r now' = r := by
  rw [sanitizeVideoId_eq_stages]
  have hrepl : sanReplaced r = r.toList := by
    unfold sanReplaced
    rw [stripExtRev_eq_self, List.reverse_reverse]
    · have : ∀ c ∈ r.toList, (if isAlnumAscii c then c else '-') = c := by
        intro c hc
        split
        · rfl
        · next ha =>
          rw [sanChar_not_alnum_eq_hyphen (hsan c hc) (by simpa using ha)]
      rw [List.map_congr_left this, List.map_id']
    · intro c hc
      rw [List.mem_reverse] at hc
      exact sanChar_ne_dot_slash (hsan c hc)
  have hlow : sanLowered r = r.toList := by
    unfold sanLowered
    rw [hrepl, collapseHyphens_eq_self hchain, stripHyphens_eq_self hhead hlast]
    have : ∀ c ∈ r.toList, toLowerAscii c = c := fun c hc => toLowerAscii_fixed c (hsan c hc)
    rw [List.map_congr_left this, List.map_id']
  rw [hlow, if_neg (by simpa [List.isEmpty_iff] using hne),
    List.take_of_length_le hlen, mk_toList]

/-- Property bundle of the timestamp fallback string. -/
theorem fallback_props (now : Nat) :
    ("video-" ++ Nat.repr now : String).toList ≠ []
    ∧ (∀ c ∈ ("video-" ++ Nat.repr now : String).toList, isSanChar c = true)
    ∧ (∀ c, ("video-" ++ Nat.repr now : String).toList.head? = some c → c ≠ '-')
    ∧ (∀ c, ("video-" ++ Nat.repr now : String).toList.getLast? = some c → c ≠ '-')
    ∧ List.Chain' SanR ("video-" ++ Nat.repr now : String).toList
    ∧ ("video-" ++ Nat.repr now : String).toList.length = 6 + (Nat.repr now).toList.length := by
  obtain ⟨hdig, hnil⟩ := repr_digits now
  have hdata : ("video-" ++ Nat.repr now : String).toList
      = ['v', 'i', 'd', 'e', 'o', '-'] ++ (Nat.repr now).toList := rfl
  have hdne : ∀ c ∈ (Nat.repr now).toList, c ≠ '-' := by
    intro c hc he
    have := hdig c hc
    rw [he, hyphen_toNat] at this
    omega
  refine ⟨?_, ?_, ?_, ?_, ?_, ?_⟩
  · rw [hdata]; simp
  · rw [hdata]
    intro c hc
    rcases List.mem_append.mp hc with h | h
    · fin_cases h <;> decide
    · rw [isSanChar_iff]
      have := hdig c h
      omega
  · rw [hdata]
    intro c hc
    simp only [List.cons_append, List.head?_cons] at hc
    cases hc
    decide
  · rw [hdata]
    intro c hc
    rw [List.getLast?_append_of_ne_nil _ hnil] at hc
    exact hdne c (List.mem_of_mem_getLast? hc)
  · rw [hdata, List.chain'_append]
    have hl1 : List.Chain' SanR ['v', 'i', 'd', 'e', 'o', '-'] := by
      show List.Chain SanR 'v' ['i', 'd', 'e', 'o', '-']
      exact List.Chain.cons (by decide) (List.Chain.cons (by decide) (List.Chain.cons (by decide)
        (List.Chain.cons (by decide) (List.Chain.cons (by decide) List.Chain.nil))))
    refine ⟨hl1, chain'_of_no_hyphen hdne, ?_⟩
    intro x hx y hy
    intro hc
    cases hy2 : (Nat.repr now).toList with
    | nil => exact hnil hy2
    | cons a t =>
      rw [hy2] at hy
      cases hy
      exact hdne y (hy2 ▸ List.mem_cons_self _ _) hc.2
  · rw [hdata, List.length_append]
    rfl

/-- Property bundle of the truncated main-branch output. -/
theorem main_branch_props (s : String) (h : sanLowered s ≠ []) :
    (String.mk ((sanLowered s).take 100)).toList ≠ []
    ∧ (∀ c ∈ (String.mk ((sanLowered s).take 100)).toList, isSanChar c = true)
    ∧ (∀ c, (String.mk ((sanLowered s).take 100)).toList.head? = some c → c ≠ '-')
    ∧ List.Chain' SanR (String.mk ((sanLowered s).take 100)).toList
    ∧ (String.mk ((sanLowered s).take 100)).toList.length ≤ 100 := by
  have hdata : (String.mk ((sanLowered s).take 100)).toList = (sanLowered s).take 100 := rfl
  rw [hdata]
  refine ⟨?_, ?_, ?_, ?_, ?_⟩
  · rw [Ne, List.take_eq_nil_iff]
    simp only [OfNat.ofNat_ne_zero, false_or]
    exact h
  · intro c hc
    exact sanLowered_sanChar (List.mem_of_mem_take hc)
  · intro c hc
    cases hl : sanLowered s with
    | nil => exact absurd hl h
    | cons a t =>
      rw [hl, List.take_succ_cons, List.head?_cons] at hc
      cases hc
      apply sanLowered_head
      rw [hl, List.head?_cons]
  · exact (sanLowered_chain' s).take 100
  · rw [List.length_take]
    omega

/-- C5 counterexample: the claim asserts that `sanitizeVideoId` output has
no trailing hyphen and that the sanitizer is idempotent on every input.  On
`longId` the 100-character truncation cuts right after a hyphen, so the
output ends in a hyphen and re-sanitizing strips it, changing the value. -/
theorem c5_counterexample :
    sanitizeVideoId (sanitizeVideoId longId 0) 0 ≠ sanitizeVideoId longId 0
    ∧ (sanitizeVideoId longId 0).toList.getLast? = some '-' := by
  constructor
  · decide
  · decide

/-- C5 (amended): for every input the sanitizer returns a non-empty string
of lowercase alphanumerics and hyphens with no leading hyphen and no two
adjacent hyphens; the length is at most 100 whenever the rendered timestamp
fits in 94 characters; and the sanitizer is idempotent on every output that
does not end in a hyphen (the sole exception being a truncation that cuts
immediately after a hyphen, as in the counterexample). -/
theorem c5_sanitizeVideoId_props (s : String) (now : Nat) :
    sanitizeVideoId s now ≠ ""
    ∧ (∀ c ∈ (sanitizeVideoId s now).toList, isSanChar c = true)
    ∧ (∀ c, (sanitizeVideoId s now).toList.head? = some c → c ≠ '-')
    ∧ List.Chain' SanR (sanitizeVideoId s now).toList
    ∧ ((Nat.repr now).length ≤ 94 → (sanitizeVideoId s now).length ≤ 100)
    ∧ ((Nat.repr now).length ≤ 94 →
        (∀ c, (sanitizeVideoId s now).toList.getLast? = some c → c ≠ '-') →
        ∀ now' : Nat, sanitizeVideoId (sanitizeVideoId s now) now' = sanitizeVideoId s now) := by
  rw [sanitizeVideoId_eq_stages]
  by_cases hemp : (sanLowered s).isEmpty
  · rw [if_pos hemp]
    obtain ⟨hne, hsan, hhead, hlast, hchain, hlen⟩ := fallback_props now
    have hlen94 : (Nat.repr now).length = (Nat.repr now).toList.length := rfl
    have hslen : ("video-" ++ Nat.repr now : String).length
        = ("video-" ++ Nat.repr now : String).toList.length := rfl
    refine ⟨?_, hsan, hhead, hchain, ?_, ?_⟩
    · intro h
      apply hne
      rw [h]
      rfl
    · intro hb
      rw [hslen, hlen]
      omega
    · intro hb _ now'
      exact sanitizeVideoId_fixed _ now' hne hsan hhead hlast hchain
        (by rw [hlen]; omega)
  · rw [if_neg hemp]
    have hnil : sanLowered s ≠ [] := by
      simpa [List.isEmpty_iff] using hemp
    obtain ⟨hne, hsan, hhead, hchain, hlen⟩ := main_branch_props s hnil
    refine ⟨?_, hsan, hhead, hchain, ?_, ?_⟩
    · intro h
      exact hne (mk_eq_empty h ▸ rfl)
    · intro _
      exact hlen
    · intro _ hlast now'
      exact sanitizeVideoId_fixed _ now' hne hsan hhead hlast hchain hlen

/-- C5 witness: concrete instantiation of the amended theorem. -/
theorem c5_witness :
    sanitizeVideoId "My Vacation!!.mp4" 0 ≠ ""
    ∧ sanitizeVideoId (sanitizeVideoId "My Vacation!!.mp4" 0) 3
        = sanitizeVideoId "My Vacation!!.mp4" 0 := by
  obtain ⟨h1, _, _, _, _, h6⟩ := c5_sanitizeVideoId_props "My Vacation!!.mp4" 0
  refine ⟨h1, h6 (by decide) ?_ 3⟩
  intro c hc
  rw [(by decide :
    (sanitizeVideoId "My Vacation!!.mp4" 0).toList.getLast? = some 'n')] at hc
  cases hc
  decide

/-! ## Claim C2 -/
/-- C2: evaluation of the handler at a fully successful run (parse, download,
validation, both transcodes, both uploads and the completed-upsert all
succeed, the prior ledger is empty).  The success tail of the handler then
inserts a second `processing` row under the same primary key, which fails
with a duplicate-key violation, aborts into the catch block, downgrades the
freshly upserted record to `failed` and responds 500 — the record never ends
`Completed` and the endpoint never returns 200. -/
theorem c2_success_run_ends_failed :
    (handleTranscode envAllOk bodyDirect 0 [] []).httpStatus = 500
    ∧ (handleTranscode envAllOk bodyDirect 0 [] []).respBody
        = "duplicate key value violates unique constraint"
    ∧ (∀ rec ∈ (handleTranscode envAllOk bodyDirect 0 [] []).ledger,
        rec.status = VStatus.failed)
    ∧ (handleTranscode envAllOk bodyDirect 0 [] []).trace.contains
        (Event.uploadCall BUCKET_NAME "processed/My Vacation!!.mp4/720p.mp4") = true := by
  decide

/-! ## Claim C9 -/
/-- C9 counterexample: a trigger body carrying both a decodable embedded
Pub/Sub payload and direct `{bucket, name}` fields resolves to the embedded
payload's values, not the direct ones — the handler checks
`req.body.message?.data` first. -/
theorem c9_counterexample :
    parseStorageEvent
        { messageData := some (Except.ok parsedEmbedded), directData := some directFields }
      = Except.ok ("bucket-embedded", "name-embedded")
    ∧ Except.ok ("bucket-embedded", "name-embedded")
      ≠ (Except.ok ("bucket-direct", "name-direct") :
          Except String (String × String)) := by
  decide

/-- C9 (amended): the normalizer's precedence is the reverse of the claim:
the embedded Pub/Sub form is tried first — when `message.data` is present
the direct `data` member is entirely ignored — and the direct form is used
only when `message.data` is absent. -/
theorem c9_embedded_payload_precedence (p : Except String ParsedEventData)
    (d d' : Option DirectEventData) (dd : DirectEventData) :
    parseStorageEvent { messageData := some p, directData := d }
      = parseStorageEvent { messageData := some p, directData := d' }
    ∧ parseStorageEvent { messageData := none, directData := some dd }
      = (if jsTruthy dd.bucket && jsTruthy dd.name then
          Except.ok (dd.bucket.getD "", dd.name.getD "")
        else Except.error "Missing required fields in message data") := by
  exact ⟨rfl, rfl⟩

/-! ## Claim C7 (counterexample part) -/
/-- C7 counterexample: a run whose first transcode hits the timeout is
answered with HTTP 500, not with the retryable 429 the claim requires. -/
theorem c7_counterexample :
    (handleTranscode envTimeout bodyDirect 0 [] []).httpStatus = 500
    ∧ (handleTranscode envTimeout bodyDirect 0 [] []).httpStatus ≠ 429
    ∧ (handleTranscode envTimeout bodyDirect 0 [] []).respBody
        = "FFmpeg process timed out for 360p" := by
  decide

/-! ## Claim C8 (counterexample part) -/
/-- C8 counterexample: for source name `uploads/My Vacation!!.mp4` the upload
keys use the raw extracted video id (`My Vacation!!.mp4`), not the sanitized
identity `my-vacation` the claim prescribes. -/
theorem c8_counterexample :
    (handleTranscode envAllOk bodyDirect 0 [] []).trace.contains
        (Event.uploadCall BUCKET_NAME "processed/My Vacation!!.mp4/360p.mp4") = true
    ∧ (handleTranscode envAllOk bodyDirect 0 [] []).trace.contains
        (Event.uploadCall BUCKET_NAME "processed/my-vacation/360p.mp4") = false := by
  decide

/-! ## Claim C6 (counterexample part) -/
/-- C6 counterexample: a first delivery of a source with unsupported
container format (`webm`) aborts before any ledger write; the catch-block
`update` touches no row because none exists, so the run ends with no
JobRecord at all — not with a record in status `Failed`. -/
theorem c6_counterexample :
    (handleTranscode envBadFormat bodyDirect 0 [] []).ledger = []
    ∧ (handleTranscode envBadFormat bodyDirect 0 [] []).httpStatus = 500
    ∧ (handleTranscode envBadFormat bodyDirect 0 [] []).respBody
        = "Unsupported video format: webm" := by
  decide

/-! ## Claim C1 (counterexample part) -/
/-- C1 counterexample: with a record for the derived identity `my-vacation`
already `Completed` in the ledger, re-invoking the pipeline still downloads,
transcodes and uploads (the trace contains the collaborator calls) and does
not return success — there is no idempotency gate. -/
theorem c1_counterexample :
    (completedRecordFor "my-vacation").id = sanitizeVideoId
        (extractVideoId "uploads/My Vacation!!.mp4") 0
    ∧ (completedRecordFor "my-vacation").status = VStatus.completed
    ∧ (handleTranscode envAllOk bodyDirect 0 [completedRecordFor "my-vacation"] []).trace.contains
        (Event.transcodeCall "/tmp/My Vacation!!.mp4_input.mp4"
          "/tmp/My Vacation!!.mp4_360p.mp4" 360) = true
    ∧ (handleTranscode envAllOk bodyDirect 0 [completedRecordFor "my-vacation"] []).trace.contains
        (Event.downloadCall "raw" "uploads/My Vacation!!.mp4"
          "/tmp/My Vacation!!.mp4_input.mp4") = true
    ∧ (handleTranscode envAllOk bodyDirect 0 [completedRecordFor "my-vacation"] []).httpStatus
        ≠ 200 := by
  decide

/-- C1 (amended): the handler consults no idempotency gate: the collaborator
calls it performs (download, transcode, upload — the trace) and the
temporary files it registers are identical for every prior ledger state, so
a pre-existing `Completed` record neither short-circuits the pipeline nor
suppresses any work; no `Processing` upsert happens before the work either —
the only ledger writes sit after the upload loop. -/
theorem c1_pipeline_ignores_prior_ledger (env : Env) (body : ReqBody) (now : Nat)
    (l1 l2 : Ledger) (fs0 : List String) :
    (handleTranscode env body now l1 fs0).trace = (handleTranscode env body now l2 fs0).trace
    ∧ (handleTranscode env body now l1 fs0).tempFiles
        = (handleTranscode env body now l2 fs0).tempFiles := by
  simp only [handleTranscode]
  repeat' split
  all_goals exact ⟨rfl, rfl⟩

/-! ## Claim C3 -/
theorem not_mem_runCleanup {uf : String → Bool} {fs tfs : List String} {f : String}
    (hf : f ∈ tfs) (hfault : uf f = false) : f ∉ runCleanup uf fs tfs := by
  unfold runCleanup
  intro hmem
  rw [List.mem_filter] at hmem
  have hc : tfs.contains f = true := List.elem_eq_true_of_mem hf
  rw [hc, hfault] at hmem
  simp at hmem

/-- C3: cleanup invariant.  On every exit path of the handler, each
registered temporary file whose deletion does not fault is absent from
scratch storage in the returned state; and the HTTP status, response body
and final ledger are the same function of the run regardless of deletion
faults (a deletion error never changes the response or status outcome). -/
theorem c3_cleanup_invariant (env : Env) (uf : String → Bool) (body : ReqBody)
    (now : Nat) (l0 : Ledger) (fs0 : List String) :
    (∀ f ∈ (handleTranscode env body now l0 fs0).tempFiles,
        env.unlinkFault f = false → f ∉ (handleTranscode env body now l0 fs0).fs)
    ∧ (handleTranscode { env with unlinkFault := uf } body now l0 fs0).httpStatus
        = (handleTranscode env body now l0 fs0).httpStatus
    ∧ (handleTranscode { env with unlinkFault := uf } body now l0 fs0).respBody
        = (handleTranscode env body now l0 fs0).respBody
    ∧ (handleTranscode { env with unlinkFault := uf } body now l0 fs0).ledger
        = (handleTranscode env body now l0 fs0).ledger := by
  obtain ⟨dl, pr, trc, upl, upf, inf, udf, ulf⟩ := env
  refine ⟨?_, ?_, ?_, ?_⟩
  · simp only [handleTranscode]
    repeat' split
    all_goals
      intro f hf hfault
      exact not_mem_runCleanup hf hfault
  · simp only [handleTranscode]
    repeat' split
    all_goals rfl
  · simp only [handleTranscode]
    repeat' split
    all_goals rfl
  · simp only [handleTranscode]
    repeat' split
    all_goals rfl

/-- C3 witness: on the concrete all-success run, the registered input temp
file is gone afterwards, and making every deletion fault does not change the
HTTP status or the ledger. -/
theorem c3_witness :
    "/tmp/My Vacation!!.mp4_input.mp4" ∉ (handleTranscode envAllOk bodyDirect 0 [] []).fs
    ∧ (handleTranscode { envAllOk with unlinkFault := fun _ => true } bodyDirect 0 [] []).httpStatus
        = (handleTranscode envAllOk bodyDirect 0 [] []).httpStatus
    ∧ (handleTranscode { envAllOk with unlinkFault := fun _ => true } bodyDirect 0 [] []).ledger
        = (handleTranscode envAllOk bodyDirect 0 [] []).ledger := by
  obtain ⟨h1, h2, _, h4⟩ :=
    c3_cleanup_invariant envAllOk (fun _ => true) bodyDirect 0 [] []
  exact ⟨h1 _ (by decide) rfl, h2, h4⟩

theorem skipQuality_eval {md : VideoMetadata} {h : Nat} (hh : md.height = some h)
    (h0 : h ≠ 0) (s : QualitySetting) :
    skipQuality md s = decide (h < s.height) := by
  unfold skipQuality
  rw [hh]
  simp [h0]

/-- C4: never-upscale policy over the profile catalog.  For a truthy probed
height `h`, the fan-out loop produces exactly the profiles whose target
height is at most `h`: a profile with `h < target` contributes no transcode
call, no signal, no upload call and no `processedOutputs` entry, while a
profile with `target ≤ h` is transcoded, uploaded under its derived key and
recorded in the processed map. -/
theorem c4_never_upscale (tres : String → TranscodeOutcome) (ures : String → Except String Unit)
    (videoId : String) (md : VideoMetadata) (h : Nat)
    (hh : md.height = some h) (h0 : h ≠ 0)
    (ht : ∀ q, tres q = TranscodeOutcome.success)
    (hu : ∀ d, ures d = Except.ok ()) :
    (processQualities tres ures videoId md VIDEO_QUALITIES [] [] []).2.2.2
      = Except.ok
          ((if h < 360 then []
            else [("360p", "gs://" ++ BUCKET_NAME ++ "/"
                     ++ ("processed/" ++ videoId ++ "/" ++ "360p" ++ ".mp4"))])
           ++ (if h < 720 then []
            else [("720p", "gs://" ++ BUCKET_NAME ++ "/"
                     ++ ("processed/" ++ videoId ++ "/" ++ "720p" ++ ".mp4"))]))
    ∧ (processQualities tres ures videoId md VIDEO_QUALITIES [] [] []).2.1
      = (if h < 360 then []
         else [Event.transcodeCall ("/tmp/" ++ videoId ++ "_input.mp4")
                 ("/tmp/" ++ videoId ++ "_" ++ "360p" ++ ".mp4") 360,
               Event.sigterm 360,
               Event.uploadCall BUCKET_NAME ("processed/" ++ videoId ++ "/" ++ "360p" ++ ".mp4")])
        ++ (if h < 720 then []
         else [Event.transcodeCall ("/tmp/" ++ videoId ++ "_input.mp4")
                 ("/tmp/" ++ videoId ++ "_" ++ "720p" ++ ".mp4") 720,
               Event.sigterm 720,
               Event.uploadCall BUCKET_NAME ("processed/" ++ videoId ++ "/" ++ "720p" ++ ".mp4")]) := by
  have hs360 := skipQuality_eval hh h0 ⟨360, 23⟩
  have hs720 := skipQuality_eval hh h0 ⟨720, 23⟩
  by_cases h3 : h < 360
  · have h7 : h < 720 := by omega
    constructor <;>
      simp [processQualities, VIDEO_QUALITIES, hs360, hs720, h3, h7]
  · by_cases h7 : h < 720
    · constructor <;>
        simp [processQualities, VIDEO_QUALITIES, hs360, hs720, h3, h7, ht, hu, transcodeVideo]
    · constructor <;>
        simp [processQualities, VIDEO_QUALITIES, hs360, hs720, h3, h7, ht, hu, transcodeVideo]

/-- C4 witness: at height 480 the loop yields exactly the 360p output. -/
theorem c4_witness :
    (processQualities (fun _ => TranscodeOutcome.success) (fun _ => Except.ok ())
        "vid" mdHeight480 VIDEO_QUALITIES [] [] []).2.2.2
      = Except.ok [("360p", "gs://" ++ BUCKET_NAME ++ "/"
          ++ ("processed/" ++ "vid" ++ "/" ++ "360p" ++ ".mp4"))] := by
  obtain ⟨hA, _⟩ := c4_never_upscale (fun _ => TranscodeOutcome.success)
    (fun _ => Except.ok ()) "vid" mdHeight480 480 rfl (by decide)
    (fun _ => rfl) (fun _ => rfl)
  rw [hA, if_neg (by omega), if_pos (by omega)]
  rfl

theorem skipQuality_false_of_absent {md : VideoMetadata}
    (hh : md.height = none ∨ md.height = some 0) (s : QualitySetting) :
    skipQuality md s = false := by
  unfold skipQuality
  rcases hh with hh | hh <;> rw [hh] <;> simp

/-- C10: when the probe reports no height, or a height of 0, the truthiness
guard of the skip check fails, so no profile is skipped: both catalog
profiles are transcoded, uploaded and present in the processed map. -/
theorem c10_untruthy_height_processes_all (tres : String → TranscodeOutcome)
    (ures : String → Except String Unit) (videoId : String) (md : VideoMetadata)
    (hh : md.height = none ∨ md.height = some 0)
    (ht : ∀ q, tres q = TranscodeOutcome.success)
    (hu : ∀ d, ures d = Except.ok ()) :
    (∀ s : QualitySetting, skipQuality md s = false)
    ∧ (processQualities tres ures videoId md VIDEO_QUALITIES [] [] []).2.2.2
      = Except.ok
          [("360p", "gs://" ++ BUCKET_NAME ++ "/"
              ++ ("processed/" ++ videoId ++ "/" ++ "360p" ++ ".mp4")),
           ("720p", "gs://" ++ BUCKET_NAME ++ "/"
              ++ ("processed/" ++ videoId ++ "/" ++ "720p" ++ ".mp4"))]
    ∧ (processQualities tres ures videoId md VIDEO_QUALITIES [] [] []).2.1
      = [Event.transcodeCall ("/tmp/" ++ videoId ++ "_input.mp4")
           ("/tmp/" ++ videoId ++ "_" ++ "360p" ++ ".mp4") 360,
         Event.sigterm 360,
         Event.uploadCall BUCKET_NAME ("processed/" ++ videoId ++ "/" ++ "360p" ++ ".mp4"),
         Event.transcodeCall ("/tmp/" ++ videoId ++ "_input.mp4")
           ("/tmp/" ++ videoId ++ "_" ++ "720p" ++ ".mp4") 720,
         Event.sigterm 720,
         Event.uploadCall BUCKET_NAME ("processed/" ++ videoId ++ "/" ++ "720p" ++ ".mp4")] := by
  have hsk := skipQuality_false_of_absent hh
  refine ⟨hsk, ?_, ?_⟩ <;>
    simp [processQualities, VIDEO_QUALITIES, hsk, ht, hu, transcodeVideo]

/-- C10 witness: with an absent height both profiles are produced. -/
theorem c10_witness :
    (processQualities (fun _ => TranscodeOutcome.success) (fun _ => Except.ok ())
        "vid" mdNoHeight VIDEO_QUALITIES [] [] []).2.2.2
      = Except.ok [("360p", "gs://" ++ BUCKET_NAME ++ "/"
            ++ ("processed/" ++ "vid" ++ "/" ++ "360p" ++ ".mp4")),
          ("720p", "gs://" ++ BUCKET_NAME ++ "/"
            ++ ("processed/" ++ "vid" ++ "/" ++ "720p" ++ ".mp4"))] := by
  obtain ⟨_, hB, _⟩ := c10_untruthy_height_processes_all
    (fun _ => TranscodeOutcome.success) (fun _ => Except.ok ()) "vid" mdNoHeight
    (Or.inl rfl) (fun _ => rfl) (fun _ => rfl)
  exact hB

theorem processQualities_trace_extends (tres : String → TranscodeOutcome)
    (ures : String → Except String Unit) (videoId : String) (md : VideoMetadata) :
    ∀ (cs : List (String × QualitySetting)) (tfs : List String) (tr : List Event)
      (fs : List String),
      ∃ d : List Event,
        (processQualities tres ures videoId md cs tfs tr fs).2.1 = tr ++ d
  | [], tfs, tr, fs => ⟨[], by simp [processQualities]⟩
  | (q, s) :: rest, tfs, tr, fs => by
    simp only [processQualities]
    split
    · exact processQualities_trace_extends tres ures videoId md rest _ tr _
    · split
      · exact ⟨(transcodeVideo ("/tmp/" ++ videoId ++ "_input.mp4")
          ("/tmp/" ++ videoId ++ "_" ++ q ++ ".mp4") s (tres q)).1, rfl⟩
      · split
        · exact ⟨(transcodeVideo ("/tmp/" ++ videoId ++ "_input.mp4")
            ("/tmp/" ++ videoId ++ "_" ++ q ++ ".mp4") s (tres q)).1
              ++ [Event.uploadCall BUCKET_NAME
                  ("processed/" ++ videoId ++ "/" ++ q ++ ".mp4")],
            by rw [← List.append_assoc]⟩
        · obtain ⟨d, hd⟩ := processQualities_trace_extends tres ures videoId md rest
            (tfs ++ ["/tmp/" ++ videoId ++ "_" ++ q ++ ".mp4"])
            (tr ++ (transcodeVideo ("/tmp/" ++ videoId ++ "_input.mp4")
                ("/tmp/" ++ videoId ++ "_" ++ q ++ ".mp4") s (tres q)).1
              ++ [Event.uploadCall BUCKET_NAME ("processed/" ++ videoId ++ "/" ++ q ++ ".mp4")])
            (fs ++ ["/tmp/" ++ videoId ++ "_" ++ q ++ ".mp4"])
          split
          · next tfs2 tr3 fs2 e3 heq3 =>
            rw [heq3] at hd
            exact ⟨(transcodeVideo ("/tmp/" ++ videoId ++ "_input.mp4")
                ("/tmp/" ++ videoId ++ "_" ++ q ++ ".mp4") s (tres q)).1
                ++ [Event.uploadCall BUCKET_NAME
                    ("processed/" ++ videoId ++ "/" ++ q ++ ".mp4")] ++ d,
              by simp only [List.append_assoc] at hd ⊢; exact hd⟩
          · next tfs2 tr3 fs2 m heq3 =>
            rw [heq3] at hd
            exact ⟨(transcodeVideo ("/tmp/" ++ videoId ++ "_input.mp4")
                ("/tmp/" ++ videoId ++ "_" ++ q ++ ".mp4") s (tres q)).1
                ++ [Event.uploadCall BUCKET_NAME
                    ("processed/" ++ videoId ++ "/" ++ q ++ ".mp4")] ++ d,
              by simp only [List.append_assoc] at hd ⊢; exact hd⟩

theorem processQualities_upload_naming (tres : String → TranscodeOutcome)
    (ures : String → Except String Unit) (videoId : String) (md : VideoMetadata) :
    ∀ (cs : List (String × QualitySetting)) (tfs : List String) (tr : List Event)
      (fs : List String) (m : List (String × String)),
      (processQualities tres ures videoId md cs tfs tr fs).2.2.2 = Except.ok m →
      ∀ q url, (q, url) ∈ m →
        url = "gs://" ++ BUCKET_NAME ++ "/"
            ++ ("processed/" ++ videoId ++ "/" ++ q ++ ".mp4")
        ∧ Event.uploadCall BUCKET_NAME ("processed/" ++ videoId ++ "/" ++ q ++ ".mp4")
            ∈ (processQualities tres ures videoId md cs tfs tr fs).2.1
  | [], tfs, tr, fs, m, hm => by
    simp only [processQualities, Except.ok.injEq] at hm
    subst hm
    intro q url hqu
    cases hqu
  | (qh, s) :: rest, tfs, tr, fs, m, hm => by
    cases hsk : skipQuality md s with
    | true =>
      simp only [processQualities, hsk, if_true] at hm ⊢

      exact processQualities_upload_naming tres ures videoId md rest _ _ _ m hm
    | false =>
      cases hout : tres qh with
      | failure msg =>
        simp only [processQualities, hsk, hout, transcodeVideo, Bool.false_eq_true,
          if_false] at hm
        cases hm
      | timeout =>
        simp only [processQualities, hsk, hout, transcodeVideo, Bool.false_eq_true,
          if_false] at hm
        cases hm
      | success =>
        cases hup : ures ("processed/" ++ videoId ++ "/" ++ qh ++ ".mp4") with
        | error e =>
          simp only [processQualities, hsk, hout, hup, transcodeVideo,
            Bool.false_eq_true, if_false] at hm
          cases hm
        | ok u =>
          rcases hrec : processQualities tres ures videoId md rest
              (tfs ++ ["/tmp/" ++ videoId ++ "_" ++ qh ++ ".mp4"])
              (tr ++ [Event.transcodeCall ("/tmp/" ++ videoId ++ "_input.mp4")
                  ("/tmp/" ++ videoId ++ "_" ++ qh ++ ".mp4") s.height,
                Event.sigterm s.height]
                ++ [Event.uploadCall BUCKET_NAME
                    ("processed/" ++ videoId ++ "/" ++ qh ++ ".mp4")])
              (fs ++ ["/tmp/" ++ videoId ++ "_" ++ qh ++ ".mp4"]) with
            ⟨tfs2, tr3, fs2, res⟩
          cases res with
          | error e =>
            simp only [processQualities, hsk, hout, hup, transcodeVideo,
              Bool.false_eq_true, if_false, hrec] at hm
            cases hm
          | ok m2 =>
            simp only [processQualities, hsk, hout, hup, transcodeVideo,
              Bool.false_eq_true, if_false, hrec, Except.ok.injEq] at hm ⊢
            subst hm
            intro q url hqu
            rcases List.mem_cons.mp hqu with hqu | hqu
            · rw [Prod.mk.injEq] at hqu
              obtain ⟨rfl, rfl⟩ := hqu
              refine ⟨rfl, ?_⟩
              obtain ⟨d, hd⟩ := processQualities_trace_extends tres ures videoId md rest
                (tfs ++ ["/tmp/" ++ videoId ++ "_" ++ q ++ ".mp4"])
                (tr ++ [Event.transcodeCall ("/tmp/" ++ videoId ++ "_input.mp4")
                    ("/tmp/" ++ videoId ++ "_" ++ q ++ ".mp4") s.height,
                  Event.sigterm s.height]
                  ++ [Event.uploadCall BUCKET_NAME
                      ("processed/" ++ videoId ++ "/" ++ q ++ ".mp4")])
                (fs ++ ["/tmp/" ++ videoId ++ "_" ++ q ++ ".mp4"])
              rw [hrec] at hd
              simp only at hd
              rw [hd]
              apply List.mem_append_left
              apply List.mem_append_right
              exact List.mem_singleton.mpr rfl
            · have := processQualities_upload_naming tres ures videoId md rest
                (tfs ++ ["/tmp/" ++ videoId ++ "_" ++ qh ++ ".mp4"])
                (tr ++ [Event.transcodeCall ("/tmp/" ++ videoId ++ "_input.mp4")
                    ("/tmp/" ++ videoId ++ "_" ++ qh ++ ".mp4") s.height,
                  Event.sigterm s.height]
                  ++ [Event.uploadCall BUCKET_NAME
                      ("processed/" ++ videoId ++ "/" ++ qh ++ ".mp4")])
                (fs ++ ["/tmp/" ++ videoId ++ "_" ++ qh ++ ".mp4"]) m2
                (by rw [hrec]) q url hqu
              rw [hrec] at this
              exact this

/-- C8 (amended): output naming contract as implemented.  Every entry of the
processed map produced by the fan-out loop over the catalog is uploaded to
the destination bucket under the key `processed/{videoId}/{profile}.mp4`,
where `videoId` is the raw path segment extracted from the source object
name — not the sanitized JobIdentity the spec prescribes — and the recorded
locator is `gs://{BUCKET_NAME}/{key}`. -/
theorem c8_upload_key_contract (tres : String → TranscodeOutcome)
    (ures : String → Except String Unit) (videoId : String) (md : VideoMetadata)
    (tfs : List String) (tr : List Event) (fs : List String)
    (m : List (String × String))
    (hm : (processQualities tres ures videoId md VIDEO_QUALITIES tfs tr fs).2.2.2
      = Except.ok m) :
    ∀ q url, (q, url) ∈ m →
      url = "gs://" ++ BUCKET_NAME ++ "/"
          ++ ("processed/" ++ videoId ++ "/" ++ q ++ ".mp4")
      ∧ Event.uploadCall BUCKET_NAME ("processed/" ++ videoId ++ "/" ++ q ++ ".mp4")
          ∈ (processQualities tres ures videoId md VIDEO_QUALITIES tfs tr fs).2.1 :=
  processQualities_upload_naming tres ures videoId md VIDEO_QUALITIES tfs tr fs m hm

/-- C8 witness: concrete instantiation on the raw id `My Vacation!!.mp4`. -/
theorem c8_witness :
    Event.uploadCall BUCKET_NAME
        ("processed/" ++ "My Vacation!!.mp4" ++ "/" ++ "360p" ++ ".mp4")
      ∈ (processQualities (fun _ => TranscodeOutcome.success) (fun _ => Except.ok ())
          "My Vacation!!.mp4" mdHeight480 VIDEO_QUALITIES [] [] []).2.1 := by
  have h := c8_upload_key_contract (fun _ => TranscodeOutcome.success)
    (fun _ => Except.ok ()) "My Vacation!!.mp4" mdHeight480 [] [] []
    [("360p", "gs://raot-tube-videos-processed/processed/My Vacation!!.mp4/360p.mp4")]
    (by decide) "360p"
    "gs://raot-tube-videos-processed/processed/My Vacation!!.mp4/360p.mp4"
    (by decide)
  exact h.2

theorem sanitizeVideoId_ne_empty (s : String) (now : Nat) :
    (sanitizeVideoId s now == "") = false := by
  rw [beq_eq_false_iff_ne, Ne, sanitizeVideoId_eq_stages]
  split
  · intro h
    exact (fallback_props now).1 (by rw [h]; rfl)
  · next hemp =>
    intro h
    have hnil : sanLowered s ≠ [] := by simpa [List.isEmpty_iff] using hemp
    rcases (List.take_eq_nil_iff).mp (mk_eq_empty h) with h2 | h2
    · omega
    · exact hnil h2

/-- C6 (amended): `validateVideo` rejects exactly when the lowercased probed
container format matches none of the supported-format allow-list or no video
stream is present.  When it rejects, the pipeline aborts — no transcode or
upload happens, the endpoint answers 500 — and the best-effort catch-block
update sets an existing record for the identity to `failed` but creates
none, so with no pre-existing record the ledger keeps no record for that
identity (in particular the record is never `Completed` for that run). -/
theorem c6_validation_raises_iff_and_terminal (pd : FfprobeData) (env : Env)
    (body : ReqBody) (now : Nat) (l0 : Ledger) (fs0 : List String)
    (bucket name e : String)
    (hparse : parseStorageEvent body = Except.ok (bucket, name))
    (hdl : env.downloadResult = Except.ok ())
    (hprobe : env.probeResult = Except.ok pd)
    (hval : validateVideo (Except.ok pd) = Except.error e) :
    (∀ pd' : FfprobeData,
      (∃ e', validateVideo (Except.ok pd') = Except.error e') ↔
        (SUPPORTED_FORMATS.any (fun sup =>
            jsIncludes (String.mk (((pd'.format_name).getD "").toList.map toLowerAscii)) sup)
              = false
          ∨ (pd'.streams.getD []).find? (fun s => s.codec_type == "video") = none))
    ∧ (handleTranscode env body now l0 fs0).httpStatus = 500
    ∧ (handleTranscode env body now l0 fs0).respBody = e
    ∧ (handleTranscode env body now l0 fs0).trace
        = [Event.downloadCall bucket name ("/tmp/" ++ extractVideoId name ++ "_input.mp4")]
    ∧ (handleTranscode env body now l0 fs0).ledger
        = (if env.updateFault.isSome then l0
           else ledgerUpdateStatus l0 (sanitizeVideoId (extractVideoId name) now)
             VStatus.failed) := by
  refine ⟨?_, ?_⟩
  · intro pd'
    simp only [validateVideo]
    cases hfmt : SUPPORTED_FORMATS.any (fun sup =>
        jsIncludes (String.mk (((pd'.format_name).getD "").toList.map toLowerAscii)) sup) with
    | false =>
      simp only [hfmt, Bool.not_false, if_true]
      exact ⟨fun _ => Or.inl trivial, fun _ => ⟨_, rfl⟩⟩
    | true =>
      simp only [hfmt, Bool.not_true, Bool.false_eq_true, if_false]
      cases hfind : (pd'.streams.getD []).find? (fun s => s.codec_type == "video") with
      | none =>
        simp only [hfind]
        exact ⟨fun _ => Or.inr trivial, fun _ => ⟨_, rfl⟩⟩
      | some vs =>
        simp only [hfind]
        constructor
        · rintro ⟨e', he'⟩
          cases he'
        · rintro (h | h)
          · cases h
          · cases h
  · simp only [handleTranscode, hparse, hdl, hprobe, hval, failExit,
      sanitizeVideoId_ne_empty, Bool.false_eq_true, if_false]
    exact ⟨trivial, trivial, trivial, trivial⟩

/-- C6 witness: concrete unsupported-format run. -/
theorem c6_witness :
    (handleTranscode envBadFormat bodyDirect 0 [] []).httpStatus = 500
    ∧ (handleTranscode envBadFormat bodyDirect 0 [] []).trace
        = [Event.downloadCall "raw" "uploads/My Vacation!!.mp4"
            ("/tmp/" ++ extractVideoId "uploads/My Vacation!!.mp4" ++ "_input.mp4")] := by
  obtain ⟨_, h2, _, h4, _⟩ := c6_validation_raises_iff_and_terminal probeBadFormat
    envBadFormat bodyDirect 0 [] [] "raw" "uploads/My Vacation!!.mp4"
    "Unsupported video format: webm" (by decide) rfl rfl (by decide)
  exact ⟨h2, h4⟩

/-- C7 (amended): on a transcode timeout the external process receives the
graceful-then-forced termination sequence (SIGTERM, then SIGKILL after the
5-second grace period) and `transcodeVideo` rejects with the timeout error;
the endpoint, however, signals the failure with HTTP 500 — the handler has
no retryable classification and never produces the 429 the claim states. -/
theorem c7_timeout_sequence_and_status (env : Env) (body : ReqBody)
    (now : Nat) (l0 : Ledger) (fs0 : List String) (bucket name : String)
    (md : VideoMetadata)
    (hparse : parseStorageEvent body = Except.ok (bucket, name))
    (hdl : env.downloadResult = Except.ok ())
    (hvalok : validateVideo env.probeResult = Except.ok md)
    (hskip : skipQuality md ⟨360, 23⟩ = false)
    (htime : env.transcodeResult "360p" = TranscodeOutcome.timeout) :
    (∀ i o q, transcodeVideo i o q TranscodeOutcome.timeout
      = ([Event.transcodeCall i o q.height, Event.sigterm q.height, Event.sigkill q.height],
         Except.error ("FFmpeg process timed out for " ++ Nat.repr q.height ++ "p")))
    ∧ (handleTranscode env body now l0 fs0).httpStatus = 500
    ∧ (handleTranscode env body now l0 fs0).respBody = "FFmpeg process timed out for 360p"
    ∧ (handleTranscode env body now l0 fs0).trace
      = [Event.downloadCall bucket name ("/tmp/" ++ extractVideoId name ++ "_input.mp4"),
         Event.transcodeCall ("/tmp/" ++ extractVideoId name ++ "_input.mp4")
           ("/tmp/" ++ extractVideoId name ++ "_" ++ "360p" ++ ".mp4") 360,
         Event.sigterm 360, Event.sigkill 360] := by
  refine ⟨fun i o q => rfl, ?_⟩
  simp only [handleTranscode, hparse, hdl, hvalok, VIDEO_QUALITIES, processQualities,
    hskip, htime, transcodeVideo, Bool.false_eq_true, if_false, failExit,
    sanitizeVideoId_ne_empty]
  refine ⟨trivial, by decide, by simp⟩

/-- C7 witness: concrete timeout run. -/
theorem c7_witness :
    (handleTranscode envTimeout bodyDirect 0 [] []).httpStatus = 500
    ∧ (handleTranscode envTimeout bodyDirect 0 [] []).respBody
        = "FFmpeg process timed out for 360p" := by
  obtain ⟨_, h2, h3, _⟩ := c7_timeout_sequence_and_status envTimeout bodyDirect
    0 [] [] "raw" "uploads/My Vacation!!.mp4"
    { duration := some 60, format := some "mov,mp4,m4a,3gp,3g2,mj2"
    , width := some 1280, height := some 720 }
    (by decide) rfl (by decide) (by decide) rfl
  exact ⟨h2, h3⟩

end RaotTube
